import Mathlib

set_option maxRecDepth 100000

attribute [local semireducible] Rat.add Rat.mul Rat.sub Rat.inv Rat.ofScientific

/-! Shallow embedding of `src/scripts/main.py` (Calcifer's Cookout, a
breakout-style game). The translation is pure state passing: every Python
method that mutates `self` becomes a function on the game record; fallible
operations (list indexing that can raise `IndexError`) return `Option`.
`Ball`, `Paddle` and `Brick` are imported by `main.py` from `ball.py`,
`paddle.py` and `brick.py`, which are not part of the repository snapshot
under `src/`; their operations are modelled from the spec and marked as
such in their doc comments. -/

/-- The `GameState` enumeration of `main.py`. -/
inductive GameState where
  | READY
  | RUNNING
  | DROPPED
  | GAME_OVER
  | WIN
  deriving DecidableEq, Repr

/-- The `GameStats` dataclass of `main.py`: `score: int = 0`,
`lives: int = 0`. -/
structure GameStats where
  score : ℤ := 0
  lives : ℤ := 0
  deriving DecidableEq, Repr

/-- Modelled from the spec: the `Ball` class of the missing `ball.py`
(spec §3 Moving Body). The fields are the ones `main.py` reads and writes
(`x`, `y`, `r`, `speed_x`, `speed_y`, `out_of_bounds`, the trail) plus the
gravity constant handed to the constructor. -/
structure Ball where
  x : ℚ
  y : ℚ
  r : ℚ
  speed_x : ℚ
  speed_y : ℚ
  gravity : ℚ
  trail : List (ℚ × ℚ)
  out_of_bounds : Bool
  deriving DecidableEq, Repr

/-- Modelled from the spec: the `Paddle` class of the missing `paddle.py`
(spec §3 Paddle). `y`, `w`, `h` are fixed; `x` is driven by the pointer. -/
structure Paddle where
  x : ℚ
  y : ℚ
  w : ℚ
  h : ℚ
  deriving DecidableEq, Repr

/-- A `Brick(x, y, brick_type)` as constructed in `main.py`; the geometry
is modelled from the spec (§3 Brick: an axis-aligned rectangle of fixed
size per type). -/
structure Brick where
  x : ℚ
  y : ℚ
  brick_type : ℤ
  deriving DecidableEq, Repr

/-- One brick record of the stage file: `{x: int, y: int, brick_type: int}`. -/
structure BrickSpec where
  x : ℤ
  y : ℤ
  brick_type : ℤ
  deriving DecidableEq, Repr

/-- A stage as consumed by `_load_stage`: its list of brick records. -/
abbrev Stage := List BrickSpec

/-- Playfield width, from `pyxel.init(width=450, ...)` in `main.py`. -/
def SCREEN_W : ℚ := 450

/-- Playfield height, from `pyxel.init(..., height=200, ...)` in `main.py`. -/
def SCREEN_H : ℚ := 200

/-- Modelled from the spec: the fixed brick width (the numeric value lives
in the missing `brick.py`; no claim depends on it). -/
def BRICK_W : ℚ := 32

/-- Modelled from the spec: the fixed brick height (value in the missing
`brick.py`; no claim depends on it). -/
def BRICK_H : ℚ := 8

/-- Modelled from the spec: the fixed capacity of the ball trail (spec §3:
bounded sequence, oldest evicted past capacity; the numeric value lives in
the missing `ball.py` and no claim depends on it). -/
def TRAIL_CAP : ℕ := 30

/-- Modelled from the spec: the geometric overlap test between the ball's
bounding box and an axis-aligned rectangle (spec §4.4). It reads only the
ball's position and radius, never its velocity. -/
def Ball.hits (b : Ball) (rx ry rw rh : ℚ) : Bool :=
  decide (b.x < rx + rw ∧ rx < b.x + 2 * b.r ∧ b.y < ry + rh ∧ ry < b.y + 2 * b.r)

/-- Modelled from the spec: `Ball.detect_collision` from the missing
`ball.py` (spec §4.4). On a hit the velocity component perpendicular to the
struck face is inverted; the spec leaves the paddle bias and the face
choice open, so the model inverts the vertical component in both cases.
Returns the updated ball and whether a collision happened. -/
def Ball.detect_collision (b : Ball) (rx ry rw rh : ℚ) (_is_paddle : Bool) : Ball × Bool :=
  if b.hits rx ry rw rh then ({ b with speed_y := -b.speed_y }, true) else (b, false)

/-- Modelled from the spec: `Ball.update` from the missing `ball.py`
(spec §4.1). Integrates gravity into the vertical velocity, advances the
position, appends the new position to the bounded trail (evicting the
oldest entries past `TRAIL_CAP`), and marks `out_of_bounds` when the
vertical position exceeds the playfield's lower edge plus the radius. -/
def Ball.update (b : Ball) : Ball :=
  let sy := b.speed_y + b.gravity
  let nx := b.x + b.speed_x
  let ny := b.y + sy
  let tr := b.trail ++ [(nx, ny)]
  let tr := if TRAIL_CAP < tr.length then tr.drop (tr.length - TRAIL_CAP) else tr
  { b with
    x := nx
    y := ny
    speed_y := sy
    trail := tr
    out_of_bounds := if SCREEN_H + b.r < ny then true else b.out_of_bounds }

/-- Modelled from the spec: `Paddle.update` from the missing `paddle.py`
(spec §4.2). The paddle's centre tracks the pointer's x coordinate, clamped
to the playfield. -/
def Paddle.update (p : Paddle) (mouse_x : ℚ) : Paddle :=
  { p with x := max 0 (min (SCREEN_W - p.w) (mouse_x - p.w / 2)) }

/-- Abstraction of the external `math.cos(radians(·))` and
`math.sin(radians(·))` used by `_launch_ball` (the Python `math` module is
an external collaborator computing over floats): `cosDeg a` stands for
`cos(radians(a))` and `sinDeg a` for `sin(radians(a))` with `a` in degrees.
Theorems quantify over every interpretation. -/
structure TrigModel where
  cosDeg : ℚ → ℚ
  sinDeg : ℚ → ℚ

/-- Per-frame external inputs: `pyxel.btnp(MOUSE_BUTTON_LEFT) or
pyxel.btnp(KEY_SPACE)` collapsed into `launch_pressed`,
`pyxel.btnp(KEY_RETURN)` as `restart_pressed`, and the pointer x
coordinate that drives the paddle. -/
structure Input where
  mouse_x : ℚ
  launch_pressed : Bool
  restart_pressed : Bool

/-- The mutable state of the `BreakoutGame` class: the fields of `self` in
`main.py` that the game logic reads or writes (drawing-only state is
omitted). Fields that Python declares without assigning before
`_start_new_game` runs hold placeholder values in `init_game` and are
overwritten there, mirroring the constructor. -/
structure BreakoutGame where
  gravity : ℚ
  stats : GameStats
  paddle : Paddle
  angle : ℚ
  angle_direction : ℚ
  angle_cycle_speed : ℚ
  ball : Ball
  stages : List Stage
  current_stage : ℕ
  bricks : List Brick
  current_game_state : GameState
  deriving DecidableEq, Repr

/-- Construction `Brick(brick["x"], brick["y"], brick["brick_type"])`
performed by `_load_stage`. -/
def mkBrick (s : BrickSpec) : Brick :=
  { x := (s.x : ℚ), y := (s.y : ℚ), brick_type := s.brick_type }

namespace BreakoutGame

/-- Method `_load_stage`: replaces the brick list with the bricks of
`stages[stage_index]`. Python raises `IndexError` on a bad index, modelled
as `none`. -/
def load_stage (g : BreakoutGame) (stage_index : ℕ) : Option BreakoutGame :=
  match g.stages[stage_index]? with
  | some stage => some { g with bricks := stage.map mkBrick }
  | none => none

/-- Method `_reset_ball`: clears the trail, re-seats the ball above the
paddle, re-arms the launch indicator, zeroes the velocity and clears
`out_of_bounds`. -/
def reset_ball (g : BreakoutGame) : BreakoutGame :=
  { g with
    ball := { g.ball with
      trail := []
      y := g.paddle.y - g.ball.r * 2
      speed_x := 0
      speed_y := 0
      out_of_bounds := false }
    angle := 0
    angle_direction := 1
    angle_cycle_speed := 2 }

/-- Method `_next_stage`: advance if the 1-based counter is below the
stage count, else WIN. -/
def next_stage (g : BreakoutGame) : Option BreakoutGame :=
  if g.current_stage < g.stages.length then
    let g := { g with current_stage := g.current_stage + 1 }
    match g.load_stage (g.current_stage - 1) with
    | some g => some { g.reset_ball with current_game_state := GameState.READY }
    | none => none
  else
    some { g with current_game_state := GameState.WIN }

/-- Method `_start_new_game`: fresh `GameStats()`, stage counter 1, load
stage 0, reset the ball, READY. -/
def start_new_game (g : BreakoutGame) : Option BreakoutGame :=
  let g := { g with
    stats := {}
    current_stage := 1 }
  match g.load_stage (g.current_stage - 1) with
  | some g => some { g.reset_ball with current_game_state := GameState.READY }
  | none => none

/-- Method `_launch_ball`: velocity from the current indicator angle
(`cos(angle_rad) * 2.5`, `-sin(angle_rad) * 2.5`), then RUNNING. -/
def launch_ball (T : TrigModel) (g : BreakoutGame) : BreakoutGame :=
  { g with
    ball := { g.ball with
      speed_x := T.cosDeg g.angle * (5 / 2)
      speed_y := -T.sinDeg g.angle * (5 / 2) }
    current_game_state := GameState.RUNNING }

/-- The brick half of `_check_collision`: Python's
`for i in reversed(range(len(bricks)))` with `del bricks[i]` and `break` on
the first hit, written as structural recursion on the loop counter (the
argument `i` is the number of indices still to scan, so iteration `i + 1`
tests index `i`). -/
def brick_scan (ball : Ball) (bricks : List Brick) : ℕ → Ball × List Brick
  | 0 => (ball, bricks)
  | i + 1 =>
    match bricks[i]? with
    | some b =>
      let res := ball.detect_collision b.x b.y BRICK_W BRICK_H false
      if res.2 then (res.1, bricks.eraseIdx i) else brick_scan ball bricks i
    | none => brick_scan ball bricks i

/-- Method `_check_collision`: ball vs paddle first (the returned flag is
immediately overwritten in the source, only the ball's mutation survives),
then the bricks in reverse insertion order, stopping at the first hit. -/
def check_collision (g : BreakoutGame) : BreakoutGame :=
  let ball := (g.ball.detect_collision g.paddle.x g.paddle.y g.paddle.w g.paddle.h true).1
  let res := brick_scan ball g.bricks g.bricks.length
  { g with ball := res.1, bricks := res.2 }

/-- Method `_check_input`: launch in READY, restart (= `_start_new_game`)
in GAME_OVER or WIN. -/
def check_input (T : TrigModel) (inp : Input) (g : BreakoutGame) : Option BreakoutGame :=
  let g := if g.current_game_state = GameState.READY ∧ inp.launch_pressed then
    g.launch_ball T else g
  if (g.current_game_state = GameState.GAME_OVER ∨ g.current_game_state = GameState.WIN)
      ∧ inp.restart_pressed then
    g.start_new_game
  else
    some g

/-- Method `_update_ready_state`: pin the ball to the paddle's centre,
advance the indicator angle, reverse direction when the new angle equals
180 or 0. -/
def update_ready_state (g : BreakoutGame) : BreakoutGame :=
  let g := { g with ball := { g.ball with x := g.paddle.x + g.paddle.w / 2 - g.ball.r } }
  let g := { g with angle := g.angle + g.angle_direction * g.angle_cycle_speed }
  if g.angle = 180 ∨ g.angle = 0 then { g with angle_direction := -g.angle_direction } else g

/-- Method `_update_running_state`: move the ball, resolve collisions,
handle an empty brick field (WIN on the last stage, otherwise
`_next_stage`), then check `out_of_bounds` (DROPPED). -/
def update_running_state (g : BreakoutGame) : Option BreakoutGame :=
  let g := check_collision { g with ball := g.ball.update }
  let gq : Option BreakoutGame :=
    if g.bricks = [] then
      if g.current_stage = g.stages.length then
        some { g with current_game_state := GameState.WIN }
      else
        g.next_stage
    else
      some g
  match gq with
  | some g =>
    some (if g.ball.out_of_bounds then { g with current_game_state := GameState.DROPPED } else g)
  | none => none

/-- Method `_update_dropped_state`: one life lost; READY with a fresh ball
if lives remain positive, otherwise GAME_OVER. -/
def update_dropped_state (g : BreakoutGame) : BreakoutGame :=
  let g := { g with stats := { g.stats with lives := g.stats.lives - 1 } }
  if g.stats.lives > 0 then
    { g.reset_ball with current_game_state := GameState.READY }
  else
    { g with current_game_state := GameState.GAME_OVER }

/-- Method `_update`, one frame: input polling, paddle update, then the
active state's update routine (GAME_OVER and WIN do nothing). -/
def update (T : TrigModel) (inp : Input) (g : BreakoutGame) : Option BreakoutGame :=
  match check_input T inp g with
  | none => none
  | some g =>
    let g := { g with paddle := g.paddle.update inp.mouse_x }
    match g.current_game_state with
    | GameState.READY => some g.update_ready_state
    | GameState.RUNNING => g.update_running_state
    | GameState.DROPPED => some g.update_dropped_state
    | GameState.GAME_OVER => some g
    | GameState.WIN => some g

/-- The `BreakoutGame.__init__` constructor up to the `pyxel.run` call:
gravity fixed at `0.007`, the externally loaded stage table and the
constructed `Paddle()` / `Ball(gravity)` passed in as parameters (those
constructors live in the missing `paddle.py` / `ball.py`), then
`_reset_ball` and `_start_new_game` exactly as the constructor runs them.
Python leaves `stats`, `angle` and `current_stage` unassigned until those
calls run; the record holds throwaway values for them that the two calls
overwrite. -/
def init_game (stages : List Stage) (p : Paddle) (b : Ball) : Option BreakoutGame :=
  let g : BreakoutGame :=
    { gravity := 7 / 1000
      stats := {}
      paddle := p
      angle := 0
      angle_direction := 1
      angle_cycle_speed := 2
      ball := { b with gravity := 7 / 1000 }
      stages := stages
      current_stage := 1
      bricks := []
      current_game_state := GameState.READY }
  g.reset_ball.start_new_game

/-- Frame-reachability: the states a game visits from `g0` under
`pyxel.run` driving `_update` once per frame with arbitrary inputs
(drawing callbacks do not mutate the state). -/
inductive Reachable (T : TrigModel) (g0 : BreakoutGame) : BreakoutGame → Prop where
  | refl : Reachable T g0 g0
  | step {g g' : BreakoutGame} (inp : Input) :
      Reachable T g0 g → update T inp g = some g' → Reachable T g0 g'

/-- Invariant used for the claims about `GameStats`: the score is never
touched by any code path, and the lives counter is 0 except in a GAME_OVER
reached by a drop, where it is -1. -/
def StatsInv (g : BreakoutGame) : Prop :=
  g.stats.score = 0 ∧
    (g.stats.lives = 0 ∨
      (g.stats.lives = -1 ∧ g.current_game_state = GameState.GAME_OVER))

/-- Invariant used for the stage-counter claims: `current_stage` stays
within `[1, number of stages]`. -/
def StageInv (g : BreakoutGame) : Prop :=
  1 ≤ g.current_stage ∧ g.current_stage ≤ g.stages.length

/-- Iterated READY-state frames: `n` applications of `_update_ready_state`. -/
def readyIter (g : BreakoutGame) : ℕ → BreakoutGame
  | 0 => g
  | n + 1 => update_ready_state (readyIter g n)

/-- Invariant of the launch-indicator oscillation: the angle is an even
number of degrees `2 * k` with `k ≤ 90`, moving right (direction 1) only
below 180 and left (direction -1) only above 0. -/
def OscInv (g : BreakoutGame) : Prop :=
  g.angle_cycle_speed = 2 ∧
    ∃ k : ℕ, k ≤ 90 ∧ g.angle = 2 * (k : ℚ) ∧
      ((g.angle_direction = 1 ∧ k < 90) ∨ (g.angle_direction = -1 ∧ 0 < k))

end BreakoutGame

/-- Composite test used by the brick loop of `_check_collision`: does the
ball (as mutated so far this frame) overlap brick `b`. -/
def brickHit (ball : Ball) (b : Brick) : Bool :=
  ball.hits b.x b.y BRICK_W BRICK_H

/-- The ball after the paddle test of `_check_collision`, i.e. exactly the
ball value the brick loop receives. -/
def paddle_checked_ball (g : BreakoutGame) : Ball :=
  (g.ball.detect_collision g.paddle.x g.paddle.y g.paddle.w g.paddle.h true).1

/-- A sample interpretation of the trig functions, used only to
instantiate theorems at concrete inputs. -/
def sampleTrig : TrigModel := ⟨fun _ => 1, fun _ => 0⟩

/-- A frame input with no button pressed. -/
def inpIdle : Input := ⟨225, false, false⟩

/-- A frame input with the launch button pressed. -/
def inpLaunch : Input := ⟨225, true, false⟩

/-- A frame input with the restart button pressed. -/
def inpRestart : Input := ⟨225, false, true⟩

/-- A sample paddle inside the playfield. -/
def samplePaddle : Paddle := ⟨205, 180, 40, 10⟩

/-- A sample initial ball (its mutable fields are overwritten by
`_reset_ball` before play). -/
def sampleBall : Ball := ⟨225, 170, 2, 0, 0, 0, [], false⟩

/-- A sample one-stage table with a single brick. -/
def sampleStages : List Stage := [[⟨213, 50, 1⟩]]

/-- The game state produced by the constructor on the sample data. -/
def sampleG0 : BreakoutGame :=
  (BreakoutGame.init_game sampleStages samplePaddle sampleBall).get (by decide)

/-- A paddle whose resting height lies below the playfield's bottom edge,
so a freshly launched ball is immediately out of bounds; the `Paddle()`
constructor lives in the missing `paddle.py`, so its field values are
unconstrained inputs of the model. -/
def dropPaddle : Paddle := ⟨205, 250, 40, 10⟩

/-- A stage table whose only stage has no bricks (the spec's §8 scenario
explicitly uses a brickless stage). -/
def dropStages : List Stage := [[]]

/-- Constructor output on the brickless stage table and low paddle. -/
def dropG0 : BreakoutGame :=
  (BreakoutGame.init_game dropStages dropPaddle sampleBall).get (by decide)

/-- One frame after `dropG0` with the launch button pressed: the ball
leaves the playfield in the same frame, so the state is DROPPED. -/
def dropG1 : BreakoutGame :=
  (BreakoutGame.update sampleTrig inpLaunch dropG0).get (by decide)

/-- One further idle frame: the DROPPED update runs with `lives = 0`. -/
def dropG2 : BreakoutGame :=
  (BreakoutGame.update sampleTrig inpIdle dropG1).get (by decide)

/-- One further frame with restart pressed from GAME_OVER. -/
def dropG3 : BreakoutGame :=
  (BreakoutGame.update sampleTrig inpRestart dropG2).get (by decide)

/-- A RUNNING state on the last stage with an empty brick field whose ball
falls below the bottom edge during the next movement update. -/
def sinkGame : BreakoutGame :=
  { gravity := 7 / 1000
    stats := {}
    paddle := dropPaddle
    angle := 0
    angle_direction := 1
    angle_cycle_speed := 2
    ball := ⟨225, 246, 2, 5 / 2, 0, 7 / 1000, [], false⟩
    stages := dropStages
    current_stage := 1
    bricks := []
    current_game_state := GameState.RUNNING }

/-- A RUNNING state on the last stage with an empty brick field whose ball
stays inside the playfield during the next movement update. -/
def clearGame : BreakoutGame :=
  { gravity := 7 / 1000
    stats := {}
    paddle := samplePaddle
    angle := 0
    angle_direction := 1
    angle_cycle_speed := 2
    ball := ⟨225, 100, 2, 5 / 2, 0, 7 / 1000, [], false⟩
    stages := dropStages
    current_stage := 1
    bricks := []
    current_game_state := GameState.RUNNING }

/-- The frame outcome of `sinkGame`. -/
def sinkGame1 : BreakoutGame :=
  (BreakoutGame.update_running_state sinkGame).get (by decide)

/-- The frame outcome of `clearGame`. -/
def clearGame1 : BreakoutGame :=
  (BreakoutGame.update_running_state clearGame).get (by decide)

/-- A RUNNING state with two bricks that both overlap the ball. -/
def twoBrickGame : BreakoutGame :=
  { gravity := 7 / 1000
    stats := {}
    paddle := samplePaddle
    angle := 0
    angle_direction := 1
    angle_cycle_speed := 2
    ball := ⟨225, 60, 2, 0, 0, 7 / 1000, [], false⟩
    stages := sampleStages
    current_stage := 1
    bricks := [⟨224, 58, 1⟩, ⟨226, 59, 1⟩]
    current_game_state := GameState.RUNNING }

/-- A DROPPED state with one life remaining. -/
def lifeGame : BreakoutGame :=
  { gravity := 7 / 1000
    stats := ⟨0, 1⟩
    paddle := samplePaddle
    angle := 0
    angle_direction := 1
    angle_cycle_speed := 2
    ball := ⟨225, 210, 2, 0, 3, 7 / 1000, [], true⟩
    stages := sampleStages
    current_stage := 1
    bricks := [⟨213, 50, 1⟩]
    current_game_state := GameState.DROPPED }

/-! Helper lemmas: how each method acts on the individual fields. Proofs of
the claims below share these; none of them is itself a claim theorem. -/

namespace BreakoutGame

theorem reset_ball_stats (g : BreakoutGame) : (reset_ball g).stats = g.stats := rfl

theorem reset_ball_state (g : BreakoutGame) :
    (reset_ball g).current_game_state = g.current_game_state := rfl

theorem reset_ball_cs (g : BreakoutGame) : (reset_ball g).current_stage = g.current_stage := rfl

theorem reset_ball_stages (g : BreakoutGame) : (reset_ball g).stages = g.stages := rfl

theorem reset_ball_bricks (g : BreakoutGame) : (reset_ball g).bricks = g.bricks := rfl

theorem launch_ball_stats (T : TrigModel) (g : BreakoutGame) :
    (launch_ball T g).stats = g.stats := rfl

theorem launch_ball_state (T : TrigModel) (g : BreakoutGame) :
    (launch_ball T g).current_game_state = GameState.RUNNING := rfl

theorem launch_ball_cs (T : TrigModel) (g : BreakoutGame) :
    (launch_ball T g).current_stage = g.current_stage := rfl

theorem launch_ball_stages (T : TrigModel) (g : BreakoutGame) :
    (launch_ball T g).stages = g.stages := rfl

theorem launch_ball_bricks (T : TrigModel) (g : BreakoutGame) :
    (launch_ball T g).bricks = g.bricks := rfl

theorem check_collision_stats (g : BreakoutGame) : (check_collision g).stats = g.stats := rfl

theorem check_collision_state (g : BreakoutGame) :
    (check_collision g).current_game_state = g.current_game_state := rfl

theorem check_collision_cs (g : BreakoutGame) :
    (check_collision g).current_stage = g.current_stage := rfl

theorem check_collision_stages (g : BreakoutGame) : (check_collision g).stages = g.stages := rfl

theorem update_ready_state_stats (g : BreakoutGame) :
    (update_ready_state g).stats = g.stats := by
  simp only [update_ready_state]; split <;> rfl

theorem update_ready_state_state (g : BreakoutGame) :
    (update_ready_state g).current_game_state = g.current_game_state := by
  simp only [update_ready_state]; split <;> rfl

theorem update_ready_state_cs (g : BreakoutGame) :
    (update_ready_state g).current_stage = g.current_stage := by
  simp only [update_ready_state]; split <;> rfl

theorem update_ready_state_stages (g : BreakoutGame) :
    (update_ready_state g).stages = g.stages := by
  simp only [update_ready_state]; split <;> rfl

theorem update_ready_state_bricks (g : BreakoutGame) :
    (update_ready_state g).bricks = g.bricks := by
  simp only [update_ready_state]; split <;> rfl

theorem load_stage_eq_some {g g' : BreakoutGame} {i : ℕ} :
    load_stage g i = some g' ↔
      ∃ st, g.stages[i]? = some st ∧ g' = { g with bricks := st.map mkBrick } := by
  unfold load_stage
  cases h : g.stages[i]? <;> simp [h, eq_comm]

theorem start_new_game_eq_some {g g' : BreakoutGame} :
    start_new_game g = some g' ↔
      ∃ st, g.stages[0]? = some st ∧
        g' = { reset_ball { g with stats := {}, current_stage := 1, bricks := st.map mkBrick }
               with current_game_state := GameState.READY } := by
  unfold start_new_game load_stage
  cases h : g.stages[0]? <;> simp [h, eq_comm]

theorem next_stage_eq_some {g g' : BreakoutGame} :
    next_stage g = some g' ↔
      (g.current_stage < g.stages.length ∧
        ∃ st, g.stages[g.current_stage]? = some st ∧
          g' = { reset_ball { g with current_stage := g.current_stage + 1, bricks := st.map mkBrick }
                 with current_game_state := GameState.READY })
      ∨ (¬ g.current_stage < g.stages.length ∧
          g' = { g with current_game_state := GameState.WIN }) := by
  unfold next_stage load_stage
  by_cases hlt : g.current_stage < g.stages.length
  · simp only [hlt, if_true]
    cases h : g.stages[g.current_stage + 1 - 1]? <;>
      simp_all [Nat.add_sub_cancel, eq_comm]
  · simp [hlt, eq_comm]

end BreakoutGame

namespace BreakoutGame

theorem update_dropped_state_score (g : BreakoutGame) :
    (update_dropped_state g).stats.score = g.stats.score := by
  simp only [update_dropped_state]; split <;> rfl

theorem update_dropped_state_lives (g : BreakoutGame) :
    (update_dropped_state g).stats.lives = g.stats.lives - 1 := by
  simp only [update_dropped_state]; split <;> rfl

theorem update_dropped_state_state (g : BreakoutGame) :
    (update_dropped_state g).current_game_state =
      if g.stats.lives - 1 > 0 then GameState.READY else GameState.GAME_OVER := by
  simp only [update_dropped_state]
  split <;> rfl

theorem update_dropped_state_cs (g : BreakoutGame) :
    (update_dropped_state g).current_stage = g.current_stage := by
  simp only [update_dropped_state]; split <;> rfl

theorem update_dropped_state_stages (g : BreakoutGame) :
    (update_dropped_state g).stages = g.stages := by
  simp only [update_dropped_state]; split <;> rfl

theorem update_dropped_state_bricks (g : BreakoutGame) :
    (update_dropped_state g).bricks = g.bricks := by
  simp only [update_dropped_state]; split <;> rfl

theorem check_input_cases {T : TrigModel} {inp : Input} {g g' : BreakoutGame}
    (h : check_input T inp g = some g') :
    g' = g
    ∨ (g.current_game_state = GameState.READY ∧ inp.launch_pressed = true
        ∧ g' = launch_ball T g)
    ∨ ((g.current_game_state = GameState.GAME_OVER ∨ g.current_game_state = GameState.WIN)
        ∧ inp.restart_pressed = true ∧ start_new_game g = some g') := by
  unfold check_input at h
  by_cases h1 : g.current_game_state = GameState.READY ∧ inp.launch_pressed = true
  · simp only [h1, and_true, if_pos, launch_ball] at h
    rw [if_neg] at h
    · exact Or.inr (Or.inl ⟨h1.1, h1.2, by simp [launch_ball, ← Option.some_inj.mp h]⟩)
    · simp
  · rw [if_neg h1] at h
    by_cases h2 : (g.current_game_state = GameState.GAME_OVER
        ∨ g.current_game_state = GameState.WIN) ∧ inp.restart_pressed = true
    · rw [if_pos h2] at h
      exact Or.inr (Or.inr ⟨h2.1, h2.2, h⟩)
    · rw [if_neg h2] at h
      exact Or.inl (Option.some_inj.mp h).symm

theorem update_cases {T : TrigModel} {inp : Input} {g g' : BreakoutGame}
    (h : update T inp g = some g') :
    ∃ gi, check_input T inp g = some gi ∧
      ((({ gi with paddle := gi.paddle.update inp.mouse_x } : BreakoutGame).current_game_state
          = GameState.READY
        ∧ g' = update_ready_state { gi with paddle := gi.paddle.update inp.mouse_x })
      ∨ (({ gi with paddle := gi.paddle.update inp.mouse_x } : BreakoutGame).current_game_state
          = GameState.RUNNING
        ∧ update_running_state { gi with paddle := gi.paddle.update inp.mouse_x } = some g')
      ∨ (({ gi with paddle := gi.paddle.update inp.mouse_x } : BreakoutGame).current_game_state
          = GameState.DROPPED
        ∧ g' = update_dropped_state { gi with paddle := gi.paddle.update inp.mouse_x })
      ∨ ((({ gi with paddle := gi.paddle.update inp.mouse_x } : BreakoutGame).current_game_state
            = GameState.GAME_OVER
          ∨ ({ gi with paddle := gi.paddle.update inp.mouse_x } : BreakoutGame).current_game_state
            = GameState.WIN)
        ∧ g' = { gi with paddle := gi.paddle.update inp.mouse_x })) := by
  unfold update at h
  cases hci : check_input T inp g with
  | none => rw [hci] at h; exact absurd h (by simp)
  | some gi =>
    rw [hci] at h
    refine ⟨gi, rfl, ?_⟩
    cases hst : ({ gi with paddle := gi.paddle.update inp.mouse_x } : BreakoutGame).current_game_state <;>
      simp only [hst] at h <;> simp_all

end BreakoutGame

theorem length_pos_of_getElem?_eq_some {α : Type} {l : List α} {n : ℕ} {a : α}
    (h : l[n]? = some a) : n < l.length := by
  by_contra hn
  rw [List.getElem?_eq_none (Nat.le_of_not_lt hn)] at h
  exact Option.noConfusion h

namespace BreakoutGame

theorem update_running_state_eq {g g' : BreakoutGame}
    (h : update_running_state g = some g') :
    ∃ g2,
      ((( check_collision { g with ball := g.ball.update }).bricks = []
          ∧ g.current_stage = g.stages.length
          ∧ g2 = { check_collision { g with ball := g.ball.update }
                   with current_game_state := GameState.WIN })
        ∨ ((check_collision { g with ball := g.ball.update }).bricks = []
          ∧ g.current_stage ≠ g.stages.length
          ∧ next_stage (check_collision { g with ball := g.ball.update }) = some g2)
        ∨ ((check_collision { g with ball := g.ball.update }).bricks ≠ [] ∧
            g2 = check_collision { g with ball := g.ball.update }))
      ∧ g' = (if g2.ball.out_of_bounds then { g2 with current_game_state := GameState.DROPPED }
              else g2) := by
  simp only [update_running_state] at h
  by_cases hb : (check_collision { g with ball := g.ball.update }).bricks = []
  · by_cases hcs : (check_collision { g with ball := g.ball.update }).current_stage =
        (check_collision { g with ball := g.ball.update }).stages.length
    · rw [if_pos hb, if_pos hcs] at h
      dsimp only at h
      rw [Option.some_inj] at h
      exact ⟨{ check_collision { g with ball := g.ball.update }
               with current_game_state := GameState.WIN }, Or.inl ⟨hb, hcs, rfl⟩, h.symm⟩
    · rw [if_pos hb, if_neg hcs] at h
      cases hns : next_stage (check_collision { g with ball := g.ball.update }) with
      | none =>
        rw [hns] at h
        exact Option.noConfusion h
      | some g2 =>
        rw [hns] at h
        dsimp only at h
        rw [Option.some_inj] at h
        exact ⟨g2, Or.inr (Or.inl ⟨hb, hcs, rfl⟩), h.symm⟩
  · rw [if_neg hb] at h
    dsimp only at h
    rw [Option.some_inj] at h
    exact ⟨check_collision { g with ball := g.ball.update }, Or.inr (Or.inr ⟨hb, rfl⟩), h.symm⟩

theorem update_running_state_stats {g g' : BreakoutGame}
    (h : update_running_state g = some g') : g'.stats = g.stats := by
  obtain ⟨g2, hcases, hout⟩ := update_running_state_eq h
  have h2 : g2.stats = g.stats := by
    rcases hcases with ⟨_, _, h2⟩ | ⟨_, _, h2⟩ | ⟨_, h2⟩
    · rw [h2]; rfl
    · rcases next_stage_eq_some.mp h2 with ⟨_, _, _, rfl⟩ | ⟨_, rfl⟩ <;> rfl
    · rw [h2]; rfl
  rw [hout]
  split <;> simp_all

theorem update_running_state_stages {g g' : BreakoutGame}
    (h : update_running_state g = some g') : g'.stages = g.stages := by
  obtain ⟨g2, hcases, hout⟩ := update_running_state_eq h
  have h2 : g2.stages = g.stages := by
    rcases hcases with ⟨_, _, h2⟩ | ⟨_, _, h2⟩ | ⟨_, h2⟩
    · rw [h2]; rfl
    · rcases next_stage_eq_some.mp h2 with ⟨_, _, _, rfl⟩ | ⟨_, rfl⟩ <;> rfl
    · rw [h2]; rfl
  rw [hout]
  split <;> simp_all

theorem update_running_state_cs {g g' : BreakoutGame}
    (h : update_running_state g = some g') :
    g'.current_stage = g.current_stage
    ∨ (g.current_stage < g.stages.length ∧ g'.current_stage = g.current_stage + 1) := by
  obtain ⟨g2, hcases, hout⟩ := update_running_state_eq h
  have hgout : g'.current_stage = g2.current_stage := by
    rw [hout]; split <;> rfl
  rcases hcases with ⟨_, _, h2⟩ | ⟨_, _, h2⟩ | ⟨_, h2⟩
  · left; rw [hgout, h2]; rfl
  · rcases next_stage_eq_some.mp h2 with ⟨hlt, _, _, rfl⟩ | ⟨_, rfl⟩
    · right
      refine ⟨by simpa [check_collision_cs, check_collision_stages] using hlt, ?_⟩
      rw [hgout]; rfl
    · left; rw [hgout]; rfl
  · left; rw [hgout, h2]; rfl

end BreakoutGame

namespace BreakoutGame

theorem reachable_induction {T : TrigModel} {g0 : BreakoutGame} {P : BreakoutGame → Prop}
    (h0 : P g0)
    (hstep : ∀ (inp : Input) (g g' : BreakoutGame), P g → update T inp g = some g' → P g')
    {g : BreakoutGame} (hr : Reachable T g0 g) : P g := by
  induction hr with
  | refl => exact h0
  | step inp hr hu ih => exact hstep _ _ _ ih hu

theorem init_game_facts {stages : List Stage} {p : Paddle} {b : Ball} {g0 : BreakoutGame}
    (h : init_game stages p b = some g0) :
    g0.stats.score = 0 ∧ g0.stats.lives = 0 ∧ g0.current_stage = 1 ∧ g0.stages = stages
    ∧ g0.current_game_state = GameState.READY ∧ 1 ≤ stages.length := by
  unfold init_game at h
  obtain ⟨st, hst, rfl⟩ := start_new_game_eq_some.mp h
  exact ⟨rfl, rfl, rfl, rfl, rfl, length_pos_of_getElem?_eq_some hst⟩

theorem statsInv_congr {a b : BreakoutGame} (hs : b.stats = a.stats)
    (hcs : b.current_game_state = a.current_game_state) (h : StatsInv a) : StatsInv b := by
  rw [StatsInv, hs, hcs]; exact h

theorem statsInv_check_input {T : TrigModel} {inp : Input} {g gi : BreakoutGame}
    (h : check_input T inp g = some gi) (hg : StatsInv g) : StatsInv gi := by
  rcases check_input_cases h with rfl | ⟨hready, _, rfl⟩ | ⟨_, _, hsng⟩
  · exact hg
  · refine ⟨hg.1, Or.inl ?_⟩
    rcases hg.2 with h0 | ⟨_, hgo⟩
    · exact h0
    · rw [hready] at hgo; exact absurd hgo (by simp)
  · obtain ⟨st, _, rfl⟩ := start_new_game_eq_some.mp hsng
    exact ⟨rfl, Or.inl rfl⟩

theorem statsInv_step {T : TrigModel} (inp : Input) (g g' : BreakoutGame)
    (hg : StatsInv g) (hu : update T inp g = some g') : StatsInv g' := by
  obtain ⟨gi, hci, hdisp⟩ := update_cases hu
  have hgi : StatsInv gi := statsInv_check_input hci hg
  have hgp : StatsInv { gi with paddle := gi.paddle.update inp.mouse_x } := hgi
  rcases hdisp with ⟨hst, rfl⟩ | ⟨hst, hrun⟩ | ⟨hst, rfl⟩ | ⟨hst, rfl⟩
  · exact statsInv_congr (update_ready_state_stats _) (update_ready_state_state _) hgp
  · have hs := update_running_state_stats hrun
    refine ⟨by rw [hs]; exact hgp.1, Or.inl ?_⟩
    rcases hgp.2 with h0 | ⟨_, hgo⟩
    · rw [hs]; exact h0
    · rw [hst] at hgo; exact absurd hgo (by simp)
  · have h0 : ({ gi with paddle := gi.paddle.update inp.mouse_x } : BreakoutGame).stats.lives = 0 := by
      rcases hgp.2 with h0 | ⟨_, hgo⟩
      · exact h0
      · rw [hst] at hgo; exact absurd hgo (by simp)
    refine ⟨?_, Or.inr ⟨?_, ?_⟩⟩
    · rw [update_dropped_state_score]; exact hgp.1
    · rw [update_dropped_state_lives, h0]; rfl
    · rw [update_dropped_state_state, h0]; simp
  · exact hgp

theorem stageInv_check_input {T : TrigModel} {inp : Input} {g gi : BreakoutGame}
    (h : check_input T inp g = some gi) (hg : StageInv g) : StageInv gi := by
  rcases check_input_cases h with rfl | ⟨_, _, rfl⟩ | ⟨_, _, hsng⟩
  · exact hg
  · exact hg
  · obtain ⟨st, hst, rfl⟩ := start_new_game_eq_some.mp hsng
    exact ⟨le_refl 1, length_pos_of_getElem?_eq_some hst⟩

theorem stageInv_step {T : TrigModel} (inp : Input) (g g' : BreakoutGame)
    (hg : StageInv g) (hu : update T inp g = some g') : StageInv g' := by
  obtain ⟨gi, hci, hdisp⟩ := update_cases hu
  have hgi : StageInv gi := stageInv_check_input hci hg
  have hgp : StageInv { gi with paddle := gi.paddle.update inp.mouse_x } := hgi
  rcases hdisp with ⟨_, rfl⟩ | ⟨_, hrun⟩ | ⟨_, rfl⟩ | ⟨_, rfl⟩
  · exact ⟨by rw [update_ready_state_cs]; exact hgp.1,
      by rw [update_ready_state_cs, update_ready_state_stages]; exact hgp.2⟩
  · have hstg := update_running_state_stages hrun
    rcases update_running_state_cs hrun with hcs | ⟨hlt, hcs⟩
    · exact ⟨by rw [hcs]; exact hgp.1, by rw [hcs, hstg]; exact hgp.2⟩
    · constructor
      · rw [hcs]; omega
      · rw [hcs, hstg]; omega
  · exact ⟨by rw [update_dropped_state_cs]; exact hgp.1,
      by rw [update_dropped_state_cs, update_dropped_state_stages]; exact hgp.2⟩
  · exact hgp

theorem statsInv_reachable {T : TrigModel} {stages : List Stage} {p : Paddle} {b : Ball}
    {g0 g : BreakoutGame} (h0 : init_game stages p b = some g0)
    (hr : Reachable T g0 g) : StatsInv g := by
  refine reachable_induction ?_ (fun inp g g' => statsInv_step inp g g') hr
  obtain ⟨hscore, hlives, -, -, -, -⟩ := init_game_facts h0
  exact ⟨hscore, Or.inl hlives⟩

theorem stageInv_reachable {T : TrigModel} {stages : List Stage} {p : Paddle} {b : Ball}
    {g0 g : BreakoutGame} (h0 : init_game stages p b = some g0)
    (hr : Reachable T g0 g) : StageInv g := by
  refine reachable_induction ?_ (fun inp g g' => stageInv_step inp g g') hr
  obtain ⟨-, -, hcs, hstg, -, hlen⟩ := init_game_facts h0
  exact ⟨by omega, by rw [hcs, hstg]; exact hlen⟩

end BreakoutGame

theorem detect_collision_snd (b : Ball) (rx ry rw rh : ℚ) (p : Bool) :
    (b.detect_collision rx ry rw rh p).2 = b.hits rx ry rw rh := by
  unfold Ball.detect_collision; split <;> simp_all

theorem detect_collision_pos (b : Ball) (rx ry rw rh : ℚ) (p : Bool) :
    (b.detect_collision rx ry rw rh p).1.x = b.x ∧ (b.detect_collision rx ry rw rh p).1.y = b.y
    ∧ (b.detect_collision rx ry rw rh p).1.r = b.r := by
  unfold Ball.detect_collision; split <;> exact ⟨rfl, rfl, rfl⟩

namespace BreakoutGame

theorem brick_scan_sublist (ball : Ball) (bricks : List Brick) (n : ℕ) :
    (brick_scan ball bricks n).2.Sublist bricks := by
  induction n with
  | zero => exact List.Sublist.refl _
  | succ i ih =>
    rw [brick_scan]
    cases h : bricks[i]? with
    | none => exact ih
    | some b =>
      dsimp only
      split
      · exact List.eraseIdx_sublist bricks i
      · exact ih

theorem brick_scan_length (ball : Ball) (bricks : List Brick) (n : ℕ) :
    bricks.length ≤ (brick_scan ball bricks n).2.length + 1 := by
  induction n with
  | zero => exact Nat.le_succ _
  | succ i ih =>
    rw [brick_scan]
    cases h : bricks[i]? with
    | none => exact ih
    | some b =>
      dsimp only
      split
      · have hi : i < bricks.length := length_pos_of_getElem?_eq_some h
        rw [List.length_eraseIdx_of_lt hi]
        omega
      · exact ih

theorem brick_scan_no_hit (ball : Ball) (bricks : List Brick) (n : ℕ)
    (hno : ∀ j, j < n → ∀ b, bricks[j]? = some b → brickHit ball b = false) :
    brick_scan ball bricks n = (ball, bricks) := by
  induction n with
  | zero => rfl
  | succ i ih =>
    rw [brick_scan]
    cases h : bricks[i]? with
    | none => exact ih fun j hj => hno j (Nat.lt_succ_of_lt hj)
    | some b =>
      dsimp only
      rw [if_neg]
      · exact ih fun j hj => hno j (Nat.lt_succ_of_lt hj)
      · rw [detect_collision_snd]
        have := hno i (Nat.lt_succ_self i) b h
        rw [brickHit] at this
        simp [this]

theorem brick_scan_hit (ball : Ball) (bricks : List Brick) (n : ℕ) {k : ℕ} (hk : k < n)
    {bk : Brick} (hbk : bricks[k]? = some bk) (hhit : brickHit ball bk = true)
    (hafter : ∀ j, k < j → j < n → ∀ b, bricks[j]? = some b → brickHit ball b = false) :
    brick_scan ball bricks n =
      ((ball.detect_collision bk.x bk.y BRICK_W BRICK_H false).1, bricks.eraseIdx k) := by
  induction n with
  | zero => omega
  | succ i ih =>
    rw [brick_scan]
    by_cases hki : k = i
    · subst hki
      rw [hbk]
      dsimp only
      rw [if_pos]
      · rw [detect_collision_snd]
        rw [brickHit] at hhit
        exact hhit
    · have hklt : k < i := by omega
      cases h : bricks[i]? with
      | none => exact ih hklt fun j hj hji => hafter j hj (Nat.lt_succ_of_lt hji)
      | some b =>
        dsimp only
        rw [if_neg]
        · exact ih hklt fun j hj hji => hafter j hj (Nat.lt_succ_of_lt hji)
        · rw [detect_collision_snd]
          have := hafter i hklt (Nat.lt_succ_self i) b h
          rw [brickHit] at this
          simp [this]

end BreakoutGame

namespace BreakoutGame

theorem check_collision_bricks_sublist (g : BreakoutGame) :
    (check_collision g).bricks.Sublist g.bricks :=
  brick_scan_sublist _ g.bricks g.bricks.length

theorem oob_wrap_bricks (g2 : BreakoutGame) :
    (if g2.ball.out_of_bounds then { g2 with current_game_state := GameState.DROPPED }
     else g2).bricks = g2.bricks := by
  split <;> rfl

theorem update_running_state_bricks {g g' : BreakoutGame}
    (h : update_running_state g = some g') :
    g'.bricks.Sublist g.bricks
    ∨ ∃ st, g.stages[g.current_stage]? = some st ∧ g'.bricks = st.map mkBrick := by
  obtain ⟨g2, hcases, hout⟩ := update_running_state_eq h
  rw [hout, oob_wrap_bricks]
  rcases hcases with ⟨_, _, rfl⟩ | ⟨_, _, hns⟩ | ⟨_, rfl⟩
  · exact Or.inl (check_collision_bricks_sublist _)
  · rcases next_stage_eq_some.mp hns with ⟨_, st, hst, rfl⟩ | ⟨_, rfl⟩
    · exact Or.inr ⟨st, hst, rfl⟩
    · exact Or.inl (check_collision_bricks_sublist _)
  · exact Or.inl (check_collision_bricks_sublist _)

theorem update_bricks {T : TrigModel} {inp : Input} {g g' : BreakoutGame}
    (h : update T inp g = some g') :
    g'.bricks.Sublist g.bricks
    ∨ ∃ (i : ℕ) (st : Stage), g.stages[i]? = some st ∧ g'.bricks = st.map mkBrick := by
  obtain ⟨gi, hci, hdisp⟩ := update_cases h
  rcases check_input_cases hci with rfl | ⟨-, -, rfl⟩ | ⟨-, -, hsng⟩
  · rcases hdisp with ⟨-, rfl⟩ | ⟨-, hrun⟩ | ⟨-, rfl⟩ | ⟨-, rfl⟩
    · exact Or.inl ((update_ready_state_bricks _).symm ▸ List.Sublist.refl gi.bricks)
    · rcases update_running_state_bricks hrun with hsub | ⟨st, hst, he⟩
      · exact Or.inl hsub
      · exact Or.inr ⟨gi.current_stage, st, hst, he⟩
    · exact Or.inl ((update_dropped_state_bricks _).symm ▸ List.Sublist.refl gi.bricks)
    · exact Or.inl (List.Sublist.refl _)
  · rcases hdisp with ⟨-, rfl⟩ | ⟨-, hrun⟩ | ⟨-, rfl⟩ | ⟨-, rfl⟩
    · exact Or.inl ((update_ready_state_bricks _).symm ▸ List.Sublist.refl g.bricks)
    · rcases update_running_state_bricks hrun with hsub | ⟨st, hst, he⟩
      · exact Or.inl hsub
      · exact Or.inr ⟨g.current_stage, st, hst, he⟩
    · exact Or.inl ((update_dropped_state_bricks _).symm ▸ List.Sublist.refl g.bricks)
    · exact Or.inl (List.Sublist.refl _)
  · obtain ⟨st, hst, rfl⟩ := start_new_game_eq_some.mp hsng
    rcases hdisp with ⟨-, rfl⟩ | ⟨hrs, -⟩ | ⟨hrs, -⟩ | ⟨hrs | hrs, -⟩
    · exact Or.inr ⟨0, st, hst, (update_ready_state_bricks _).trans rfl⟩
    · exact GameState.noConfusion hrs
    · exact GameState.noConfusion hrs
    · exact GameState.noConfusion hrs
    · exact GameState.noConfusion hrs

end BreakoutGame

namespace BreakoutGame

theorem update_ready_state_angle (g : BreakoutGame) :
    (update_ready_state g).angle = g.angle + g.angle_direction * g.angle_cycle_speed := by
  simp only [update_ready_state]; split <;> rfl

theorem update_ready_state_dir (g : BreakoutGame) :
    (update_ready_state g).angle_direction =
      if g.angle + g.angle_direction * g.angle_cycle_speed = 180
          ∨ g.angle + g.angle_direction * g.angle_cycle_speed = 0 then
        -g.angle_direction
      else g.angle_direction := by
  simp only [update_ready_state]; split <;> rfl

theorem update_ready_state_speed (g : BreakoutGame) :
    (update_ready_state g).angle_cycle_speed = g.angle_cycle_speed := by
  simp only [update_ready_state]; split <;> rfl

theorem oscInv_reset (g : BreakoutGame) : OscInv (reset_ball g) := by
  refine ⟨rfl, 0, by norm_num, ?_, Or.inl ⟨rfl, by norm_num⟩⟩
  show (0 : ℚ) = 2 * ((0 : ℕ) : ℚ)
  norm_num

theorem oscInv_step {g : BreakoutGame} (h : OscInv g) : OscInv (update_ready_state g) := by
  obtain ⟨hsp, k, hk, hang, hdir⟩ := h
  refine ⟨by rw [update_ready_state_speed]; exact hsp, ?_⟩
  rcases hdir with ⟨hd, hklt⟩ | ⟨hd, hkpos⟩
  · have hang' : (update_ready_state g).angle = 2 * ((k + 1 : ℕ) : ℚ) := by
      rw [update_ready_state_angle, hang, hd, hsp]
      push_cast
      ring
    by_cases h90 : k + 1 = 90
    · refine ⟨90, le_refl 90, by rw [hang', h90], Or.inr ⟨?_, by norm_num⟩⟩
      rw [update_ready_state_dir, hang, hd, hsp, if_pos, neg_eq_iff_eq_neg]
      · norm_num
      · left
        have : ((k : ℚ)) = 89 := by
          have : (k : ℕ) = 89 := by omega
          exact_mod_cast congrArg (fun n : ℕ => (n : ℚ)) this
        rw [this]; norm_num
    · refine ⟨k + 1, by omega, hang', Or.inl ⟨?_, by omega⟩⟩
      rw [update_ready_state_dir, hang, hd, hsp, if_neg]
      push_neg
      constructor
      · intro hc
        apply h90
        have : (2 : ℚ) * k + 1 * 2 = 2 * ((k + 1 : ℕ) : ℚ) := by push_cast; ring
        rw [this] at hc
        have : ((k + 1 : ℕ) : ℚ) = 90 := by linarith
        exact_mod_cast this
      · intro hc
        have hge : (0 : ℚ) ≤ (k : ℚ) := by positivity
        linarith
  · have hang' : (update_ready_state g).angle = 2 * ((k - 1 : ℕ) : ℚ) := by
      rw [update_ready_state_angle, hang, hd, hsp]
      have : ((k - 1 : ℕ) : ℚ) = (k : ℚ) - 1 := by
        have h1 : (1 : ℕ) ≤ k := hkpos
        push_cast [h1]
        ring
      rw [this]; ring
    by_cases h1 : k = 1
    · refine ⟨0, by omega, by rw [hang', h1], Or.inl ⟨?_, by norm_num⟩⟩
      rw [update_ready_state_dir, hang, hd, hsp, if_pos]
      · norm_num
      · right
        rw [h1]; norm_num
    · have hk2 : 2 ≤ k := by omega
      refine ⟨k - 1, by omega, hang', Or.inr ⟨?_, by omega⟩⟩
      rw [update_ready_state_dir, hang, hd, hsp, if_neg]
      push_neg
      constructor
      · intro hc
        have hle : (k : ℚ) ≤ 90 := by exact_mod_cast hk
        linarith
      · intro hc
        have hge : (2 : ℚ) ≤ (k : ℚ) := by exact_mod_cast hk2
        linarith

theorem oscInv_readyIter (g : BreakoutGame) (n : ℕ) : OscInv (readyIter (reset_ball g) n) := by
  induction n with
  | zero => exact oscInv_reset g
  | succ n ih => exact oscInv_step ih

end BreakoutGame

namespace BreakoutGame

theorem update_ready_state_ball_speed_x (g : BreakoutGame) :
    (update_ready_state g).ball.speed_x = g.ball.speed_x := by
  simp only [update_ready_state]; split <;> rfl

theorem update_ready_state_ball_speed_y (g : BreakoutGame) :
    (update_ready_state g).ball.speed_y = g.ball.speed_y := by
  simp only [update_ready_state]; split <;> rfl

theorem update_ready_state_ball_trail (g : BreakoutGame) :
    (update_ready_state g).ball.trail = g.ball.trail := by
  simp only [update_ready_state]; split <;> rfl

theorem update_ready_state_ball_oob (g : BreakoutGame) :
    (update_ready_state g).ball.out_of_bounds = g.ball.out_of_bounds := by
  simp only [update_ready_state]; split <;> rfl

theorem update_ready_state_ball_y (g : BreakoutGame) :
    (update_ready_state g).ball.y = g.ball.y := by
  simp only [update_ready_state]; split <;> rfl

theorem check_collision_bricks_def (g : BreakoutGame) :
    (check_collision g).bricks =
      (brick_scan (paddle_checked_ball g) g.bricks g.bricks.length).2 := rfl

end BreakoutGame

open BreakoutGame

/-- C5: a frame update in the DROPPED state decrements lives by exactly
one; if the decremented value is positive the ball is reset (velocity zero,
`out_of_bounds` cleared, trail cleared) and the state becomes READY,
otherwise the state becomes GAME_OVER; in particular a drop with
`lives = 1` yields `lives = 0` and GAME_OVER, not READY. -/
theorem C5_dropped_frame (g : BreakoutGame) :
    (update_dropped_state g).stats.lives = g.stats.lives - 1
    ∧ (g.stats.lives - 1 > 0 →
        (update_dropped_state g).current_game_state = GameState.READY
        ∧ (update_dropped_state g).ball.speed_x = 0
        ∧ (update_dropped_state g).ball.speed_y = 0
        ∧ (update_dropped_state g).ball.trail = []
        ∧ (update_dropped_state g).ball.out_of_bounds = false)
    ∧ (g.stats.lives - 1 ≤ 0 →
        (update_dropped_state g).current_game_state = GameState.GAME_OVER)
    ∧ (g.stats.lives = 1 →
        (update_dropped_state g).stats.lives = 0
        ∧ (update_dropped_state g).current_game_state = GameState.GAME_OVER) := by
  refine ⟨update_dropped_state_lives g, ?_, ?_, ?_⟩
  · intro hpos
    have hc : ({ g with stats := { g.stats with lives := g.stats.lives - 1 } }
        : BreakoutGame).stats.lives > 0 := hpos
    simp only [update_dropped_state]
    rw [if_pos hc]
    exact ⟨rfl, rfl, rfl, rfl, rfl⟩
  · intro hle
    rw [update_dropped_state_state, if_neg (by omega)]
  · intro h1
    constructor
    · rw [update_dropped_state_lives, h1]
      norm_num
    · rw [update_dropped_state_state, h1]
      norm_num

/-- C5 witness: dropping with one life left ends the game. -/
theorem C5_dropped_frame_witness :
    (update_dropped_state lifeGame).stats.lives = 0
    ∧ (update_dropped_state lifeGame).current_game_state = GameState.GAME_OVER :=
  (C5_dropped_frame lifeGame).2.2.2 (by decide)

/-- C6: after a reset (which zeroes the velocity), launching with the
indicator at angle `a` sets the velocity deterministically to
`(cos a * 2.5, -(sin a * 2.5))` — here `2.5 = 5/2` and the trig functions
are an arbitrary interpretation of the external float `cos`/`sin` — and the
state becomes RUNNING. The indicator angle at launch time is modelled by
overriding the `angle` field after the reset, matching the spec's
`reset(); launch(angle)` round trip. -/
theorem C6_launch_velocity (T : TrigModel) (g : BreakoutGame) (a : ℚ) :
    (launch_ball T { reset_ball g with angle := a }).ball.speed_x = T.cosDeg a * (5 / 2)
    ∧ (launch_ball T { reset_ball g with angle := a }).ball.speed_y = -(T.sinDeg a * (5 / 2))
    ∧ (launch_ball T { reset_ball g with angle := a }).current_game_state = GameState.RUNNING
    ∧ (reset_ball g).ball.speed_x = 0 ∧ (reset_ball g).ball.speed_y = 0 := by
  refine ⟨rfl, ?_, rfl, rfl, rfl⟩
  show -T.sinDeg a * (5 / 2) = -(T.sinDeg a * (5 / 2))
  ring

/-- C9: after every `_reset_ball` the velocity is `(0, 0)`, the trail is
cleared, `out_of_bounds` is false, and the vertical position is
`paddle.y - 2 * radius`, whatever the previous state of the ball. -/
theorem C9_reset_ball (g : BreakoutGame) :
    (reset_ball g).ball.speed_x = 0 ∧ (reset_ball g).ball.speed_y = 0
    ∧ (reset_ball g).ball.trail = []
    ∧ (reset_ball g).ball.out_of_bounds = false
    ∧ (reset_ball g).ball.y = g.paddle.y - 2 * g.ball.r := by
  refine ⟨rfl, rfl, rfl, rfl, ?_⟩
  show g.paddle.y - g.ball.r * 2 = g.paddle.y - 2 * g.ball.r
  ring

/-- C4: in every reachable state the 1-based stage counter lies in
`[1, number of stages]`, and `_next_stage` called with the counter at the
stage count sets the state to WIN while leaving the counter unchanged (so
repeated calls keep yielding WIN and never an out-of-range index). -/
theorem C4_stage_bounds :
    (∀ (T : TrigModel) (stages : List Stage) (p : Paddle) (b : Ball) (g0 g : BreakoutGame),
      init_game stages p b = some g0 → Reachable T g0 g →
      1 ≤ g.current_stage ∧ g.current_stage ≤ g.stages.length)
    ∧ (∀ g : BreakoutGame, g.current_stage = g.stages.length →
        next_stage g = some { g with current_game_state := GameState.WIN }
        ∧ ({ g with current_game_state := GameState.WIN } : BreakoutGame).current_stage
            = g.current_stage) := by
  constructor
  · intro T stages p b g0 g hinit hr
    exact stageInv_reachable hinit hr
  · intro g hcs
    constructor
    · unfold next_stage
      rw [if_neg (by omega)]
    · rfl

/-- C4 witness: the constructor's output on the sample data is in range,
and advancing at the final stage yields WIN. -/
theorem C4_stage_bounds_witness :
    (1 ≤ sampleG0.current_stage ∧ sampleG0.current_stage ≤ sampleG0.stages.length)
    ∧ next_stage sampleG0 = some { sampleG0 with current_game_state := GameState.WIN } :=
  ⟨C4_stage_bounds.1 sampleTrig sampleStages samplePaddle sampleBall sampleG0 sampleG0
      (by decide) Reachable.refl,
    (C4_stage_bounds.2 sampleG0 (by decide)).1⟩

/-- C2 counterexample: the claim `lives ≥ 0 in every reachable state` is
false — from a fresh game (lives initialised to 0 by the dataclass
defaults) a launch whose ball drops out of bounds reaches, two frames
later, a state with `lives = -1`. -/
theorem C2_counterexample :
    init_game dropStages dropPaddle sampleBall = some dropG0
    ∧ Reachable sampleTrig dropG0 dropG2
    ∧ dropG2.stats.lives = -1
    ∧ ¬ 0 ≤ dropG2.stats.lives := by
  refine ⟨by decide, ?_, by decide, by decide⟩
  have h1 : update sampleTrig inpLaunch dropG0 = some dropG1 := by decide
  have h2 : update sampleTrig inpIdle dropG1 = some dropG2 := by decide
  exact Reachable.step inpIdle (Reachable.step inpLaunch Reachable.refl h1) h2

/-- C2 (amended): in every reachable state `score ≥ 0` and `lives ≥ -1`
hold, and `lives ≥ 0` holds whenever the state is not GAME_OVER (the only
violation of `lives ≥ 0` is the GAME_OVER state entered by a drop with
`lives = 0`). -/
theorem C2_stats_bounds (T : TrigModel) (stages : List Stage) (p : Paddle) (b : Ball)
    (g0 g : BreakoutGame) (hinit : init_game stages p b = some g0)
    (hr : Reachable T g0 g) :
    0 ≤ g.stats.score ∧ -1 ≤ g.stats.lives
    ∧ (g.current_game_state ≠ GameState.GAME_OVER → 0 ≤ g.stats.lives) := by
  obtain ⟨hs, hl⟩ := statsInv_reachable hinit hr
  refine ⟨by omega, ?_, ?_⟩
  · rcases hl with h0 | ⟨hm, -⟩ <;> omega
  · intro hne
    rcases hl with h0 | ⟨-, hgo⟩
    · omega
    · exact absurd hgo hne

/-- C2 witness: the amended bounds instantiated on a concrete reachable
GAME_OVER state. -/
theorem C2_stats_bounds_witness : 0 ≤ dropG2.stats.score ∧ -1 ≤ dropG2.stats.lives := by
  have h1 : update sampleTrig inpLaunch dropG0 = some dropG1 := by decide
  have h2 : update sampleTrig inpIdle dropG1 = some dropG2 := by decide
  have hr : Reachable sampleTrig dropG0 dropG2 :=
    Reachable.step inpIdle (Reachable.step inpLaunch Reachable.refl h1) h2
  have h := C2_stats_bounds sampleTrig dropStages dropPaddle sampleBall dropG0 dropG2
    (by decide) hr
  exact ⟨h.1, h.2.1⟩

/-- C10: `_start_new_game` initialises the stats with the dataclass
defaults `score = 0`, `lives = 0`; consequently every DROPPED frame of a
reachable game (in particular the first one of a fresh game) decrements
lives to -1 and transitions to GAME_OVER, never to READY. -/
theorem C10_fresh_game_drop :
    (∀ g g' : BreakoutGame, start_new_game g = some g' →
      g'.stats.score = 0 ∧ g'.stats.lives = 0)
    ∧ (∀ (T : TrigModel) (stages : List Stage) (p : Paddle) (b : Ball)
        (g0 g : BreakoutGame) (inp : Input) (g' : BreakoutGame),
        init_game stages p b = some g0 → Reachable T g0 g →
        g.current_game_state = GameState.DROPPED → update T inp g = some g' →
        g'.stats.lives = -1 ∧ g'.current_game_state = GameState.GAME_OVER) := by
  constructor
  · intro g g' h
    obtain ⟨st, -, rfl⟩ := start_new_game_eq_some.mp h
    exact ⟨rfl, rfl⟩
  · intro T stages p b g0 g inp g' hinit hr hdropped hu
    have hl0 : g.stats.lives = 0 := by
      obtain ⟨-, hl⟩ := statsInv_reachable hinit hr
      rcases hl with h0 | ⟨-, hgo⟩
      · exact h0
      · rw [hdropped] at hgo; exact absurd hgo (by simp)
    obtain ⟨gi, hci, hdisp⟩ := update_cases hu
    rcases check_input_cases hci with rfl | ⟨hrdy, -, -⟩ | ⟨hgo | hwin, -, -⟩
    · rcases hdisp with ⟨hst, -⟩ | ⟨hst, -⟩ | ⟨-, rfl⟩ | ⟨hst | hst, -⟩
      · exact absurd (hdropped ▸ (rfl : gi.current_game_state =
          ({ gi with paddle := gi.paddle.update inp.mouse_x }
            : BreakoutGame).current_game_state) ▸ hst) (by simp)
      · exact absurd (hdropped ▸ (rfl : gi.current_game_state =
          ({ gi with paddle := gi.paddle.update inp.mouse_x }
            : BreakoutGame).current_game_state) ▸ hst) (by simp)
      · have hgp0 : ({ gi with paddle := gi.paddle.update inp.mouse_x }
            : BreakoutGame).stats.lives = 0 := hl0
        constructor
        · rw [update_dropped_state_lives, hgp0]
          norm_num
        · rw [update_dropped_state_state, hgp0]
          norm_num
      · exact absurd (hdropped ▸ (rfl : gi.current_game_state =
          ({ gi with paddle := gi.paddle.update inp.mouse_x }
            : BreakoutGame).current_game_state) ▸ hst) (by simp)
      · exact absurd (hdropped ▸ (rfl : gi.current_game_state =
          ({ gi with paddle := gi.paddle.update inp.mouse_x }
            : BreakoutGame).current_game_state) ▸ hst) (by simp)
    · rw [hdropped] at hrdy; exact absurd hrdy (by simp)
    · rw [hdropped] at hgo; exact absurd hgo (by simp)
    · rw [hdropped] at hwin; exact absurd hwin (by simp)

/-- C10 witness: the concrete fresh game whose first drop lands on
GAME_OVER with `lives = -1`. -/
theorem C10_fresh_game_drop_witness :
    dropG2.stats.lives = -1 ∧ dropG2.current_game_state = GameState.GAME_OVER := by
  have h1 : update sampleTrig inpLaunch dropG0 = some dropG1 := by decide
  have hr : Reachable sampleTrig dropG0 dropG1 :=
    Reachable.step inpLaunch Reachable.refl h1
  exact C10_fresh_game_drop.2 sampleTrig dropStages dropPaddle sampleBall dropG0 dropG1
    inpIdle dropG2 (by decide) hr (by decide) (by decide)

/-- C7: starting from the reset configuration (angle 0, direction 1, step
2), every READY frame adds `direction * 2` degrees to the angle, the
direction reverses exactly when the new angle equals 180 or 0, the angle
stays within `[0, 180]` forever, and whenever the angle is exactly 180 the
direction is already -1 for the next update. -/
theorem C7_indicator_oscillation (g : BreakoutGame) (n : ℕ) :
    (readyIter (reset_ball g) n).angle_cycle_speed = 2
    ∧ (0 ≤ (readyIter (reset_ball g) n).angle ∧ (readyIter (reset_ball g) n).angle ≤ 180)
    ∧ (readyIter (reset_ball g) (n + 1)).angle =
        (readyIter (reset_ball g) n).angle + (readyIter (reset_ball g) n).angle_direction * 2
    ∧ (readyIter (reset_ball g) (n + 1)).angle_direction =
        (if (readyIter (reset_ball g) (n + 1)).angle = 180
            ∨ (readyIter (reset_ball g) (n + 1)).angle = 0 then
          -(readyIter (reset_ball g) n).angle_direction
        else (readyIter (reset_ball g) n).angle_direction)
    ∧ ((readyIter (reset_ball g) n).angle = 180 →
        (readyIter (reset_ball g) n).angle_direction = -1) := by
  obtain ⟨hsp, k, hk, hang, hdir⟩ := oscInv_readyIter g n
  have hstep : (readyIter (reset_ball g) (n + 1)).angle =
      (readyIter (reset_ball g) n).angle + (readyIter (reset_ball g) n).angle_direction * 2 := by
    show (update_ready_state (readyIter (reset_ball g) n)).angle = _
    rw [update_ready_state_angle, hsp]
  refine ⟨hsp, ⟨?_, ?_⟩, hstep, ?_, ?_⟩
  · rw [hang]; positivity
  · rw [hang]
    have hc : (k : ℚ) ≤ 90 := by exact_mod_cast hk
    linarith
  · show (update_ready_state (readyIter (reset_ball g) n)).angle_direction = _
    rw [update_ready_state_dir, hsp, hstep]
  · intro h180
    rcases hdir with ⟨-, hklt⟩ | ⟨hd, -⟩
    · exfalso
      rw [hang] at h180
      have hq : (k : ℚ) = 90 := by linarith
      have hn : k = 90 := by exact_mod_cast hq
      omega
    · exact hd

/-- C7 witness: after 90 READY frames from the reset configuration the
angle is exactly 180 and the direction is -1. -/
theorem C7_indicator_oscillation_witness :
    (readyIter (reset_ball sampleG0) 90).angle_direction = -1 :=
  (C7_indicator_oscillation sampleG0 90).2.2.2.2 (by decide)

/-- C1 counterexample: a RUNNING frame on the last stage in which the brick
field is empty after collision resolution does not end in WIN when the ball
also went out of bounds during that frame — the out-of-bounds check runs
after the WIN assignment and overwrites it with DROPPED. -/
theorem C1_counterexample :
    (check_collision { sinkGame with ball := sinkGame.ball.update }).bricks = []
    ∧ sinkGame.current_stage = sinkGame.stages.length
    ∧ sinkGame.current_game_state = GameState.RUNNING
    ∧ update_running_state sinkGame = some sinkGame1
    ∧ sinkGame1.current_game_state = GameState.DROPPED
    ∧ sinkGame1.current_game_state ≠ GameState.WIN :=
  ⟨by decide, by decide, by decide, by decide, by decide, by decide⟩

/-- C1 (amended): for every RUNNING frame, if after collision resolution
the brick field is empty and the stage counter equals the stage count, the
state after the update is WIN — unless the ball went out of bounds during
that frame's movement, in which case the later out-of-bounds check
overwrites WIN with DROPPED. -/
theorem C1_running_win (g : BreakoutGame)
    (hb : (check_collision { g with ball := g.ball.update }).bricks = [])
    (hcs : g.current_stage = g.stages.length) :
    update_running_state g =
      some (if (check_collision { g with ball := g.ball.update }).ball.out_of_bounds then
              { check_collision { g with ball := g.ball.update }
                with current_game_state := GameState.DROPPED }
            else
              { check_collision { g with ball := g.ball.update }
                with current_game_state := GameState.WIN }) := by
  have hcs' : (check_collision { g with ball := g.ball.update }).current_stage =
      (check_collision { g with ball := g.ball.update }).stages.length := hcs
  simp only [update_running_state]
  rw [if_pos hb, if_pos hcs']

/-- C1 witness: the amended statement on a concrete last-stage frame whose
ball stays in bounds — the state becomes WIN. -/
theorem C1_running_win_witness :
    update_running_state clearGame = some clearGame1
    ∧ clearGame1.current_game_state = GameState.WIN := by
  have h := C1_running_win clearGame (by decide) (by decide)
  constructor
  · rw [h]
    decide
  · decide

/-- C3: one call of `_check_collision` removes at most one brick — the
result is a sublist of the input shrinking by at most one element; if no
brick overlaps the (paddle-checked) ball nothing is removed; if some brick
overlaps, the overlapping brick of highest index (the last inserted among
the hits, scanned first) is removed and every lower-index brick is kept
regardless of whether it overlaps; and across any whole frame the brick
list never gains elements except by loading a stage. -/
theorem C3_single_hit :
    (∀ g : BreakoutGame,
      (check_collision g).bricks.Sublist g.bricks
      ∧ g.bricks.length ≤ (check_collision g).bricks.length + 1
      ∧ ((∀ (j : ℕ) (hj : j < g.bricks.length),
            brickHit (paddle_checked_ball g) g.bricks[j] = false) →
          (check_collision g).bricks = g.bricks)
      ∧ (∀ (k : ℕ) (hk : k < g.bricks.length),
          brickHit (paddle_checked_ball g) g.bricks[k] = true →
          (∀ (j : ℕ) (hj : j < g.bricks.length), k < j →
            brickHit (paddle_checked_ball g) g.bricks[j] = false) →
          (check_collision g).bricks = g.bricks.eraseIdx k))
    ∧ (∀ (T : TrigModel) (inp : Input) (g g' : BreakoutGame),
        update T inp g = some g' →
        g'.bricks.Sublist g.bricks
        ∨ ∃ (i : ℕ) (st : Stage), g.stages[i]? = some st ∧ g'.bricks = st.map mkBrick) := by
  constructor
  · intro g
    refine ⟨check_collision_bricks_sublist g, ?_, ?_, ?_⟩
    · rw [check_collision_bricks_def]
      exact brick_scan_length _ _ _
    · intro hno
      have hno' : ∀ j, j < g.bricks.length → ∀ b, g.bricks[j]? = some b →
          brickHit (paddle_checked_ball g) b = false := by
        intro j hj b hb
        rw [List.getElem?_eq_getElem hj, Option.some_inj] at hb
        subst hb
        exact hno j hj
      rw [check_collision_bricks_def, brick_scan_no_hit _ _ _ hno']
    · intro k hk hhit hafter
      have hbk : g.bricks[k]? = some g.bricks[k] := List.getElem?_eq_getElem hk
      have hafter' : ∀ j, k < j → j < g.bricks.length → ∀ b, g.bricks[j]? = some b →
          brickHit (paddle_checked_ball g) b = false := by
        intro j hjk hj b hb
        rw [List.getElem?_eq_getElem hj, Option.some_inj] at hb
        subst hb
        exact hafter j hj hjk
      rw [check_collision_bricks_def,
        brick_scan_hit (paddle_checked_ball g) g.bricks g.bricks.length hk hbk hhit hafter']
  · intro T inp g g' h
    exact update_bricks h

/-- C3 witness: with two overlapping bricks only the higher-index one is
removed by a single resolver call. -/
theorem C3_single_hit_witness :
    (check_collision twoBrickGame).bricks = twoBrickGame.bricks.eraseIdx 1
    ∧ (check_collision twoBrickGame).bricks.Sublist twoBrickGame.bricks := by
  refine ⟨(C3_single_hit.1 twoBrickGame).2.2.2 1 (by decide) (by decide) ?_,
    (C3_single_hit.1 twoBrickGame).1⟩
  intro j hj hlt
  have h2 : twoBrickGame.bricks.length = 2 := by decide
  exact absurd hj (by omega)

/-- C8: in the GAME_OVER and WIN states a frame performs no update of
ball, bricks or stats (only the paddle still tracks the pointer), launch
presses are ignored, and a restart press reinitialises the stats to the
defaults, sets the stage counter to 1, reloads the first stage's bricks,
resets the ball (zero velocity, empty trail, cleared `out_of_bounds`,
re-seated above the paddle) and sets the state to READY. -/
theorem C8_terminal_states (T : TrigModel) (inp : Input) (g : BreakoutGame)
    (hterm : g.current_game_state = GameState.GAME_OVER
      ∨ g.current_game_state = GameState.WIN) :
    (inp.restart_pressed = false →
      update T inp g = some { g with paddle := g.paddle.update inp.mouse_x })
    ∧ (∀ g', inp.restart_pressed = false → update T inp g = some g' →
        g'.ball = g.ball ∧ g'.bricks = g.bricks ∧ g'.stats = g.stats
        ∧ g'.current_game_state = g.current_game_state)
    ∧ (∀ g', inp.restart_pressed = true → update T inp g = some g' →
        g'.stats.score = 0 ∧ g'.stats.lives = 0 ∧ g'.current_stage = 1
        ∧ (∃ st : Stage, g.stages[0]? = some st ∧ g'.bricks = st.map mkBrick)
        ∧ g'.current_game_state = GameState.READY
        ∧ g'.ball.speed_x = 0 ∧ g'.ball.speed_y = 0 ∧ g'.ball.trail = []
        ∧ g'.ball.out_of_bounds = false ∧ g'.ball.y = g.paddle.y - g.ball.r * 2) := by
  have hnolaunch : ¬(g.current_game_state = GameState.READY ∧ inp.launch_pressed = true) := by
    rcases hterm with h | h <;> simp [h]
  have hupd_eq : ∀ _ : inp.restart_pressed = false,
      update T inp g = some { g with paddle := g.paddle.update inp.mouse_x } := by
    intro hrf
    have hci : check_input T inp g = some g := by
      simp only [check_input]
      rw [if_neg hnolaunch, if_neg]
      rw [hrf]
      simp
    unfold update
    rw [hci]
    dsimp only
    split <;> simp_all
  refine ⟨hupd_eq, ?_, ?_⟩
  · intro g' hrf hu
    rw [hupd_eq hrf, Option.some_inj] at hu
    subst hu
    exact ⟨rfl, rfl, rfl, rfl⟩
  · intro g' hrt hu
    have hci : check_input T inp g = start_new_game g := by
      simp only [check_input]
      rw [if_neg hnolaunch, if_pos ⟨hterm, hrt⟩]
    unfold update at hu
    rw [hci] at hu
    cases hsng : start_new_game g with
    | none =>
      rw [hsng] at hu
      exact Option.noConfusion hu
    | some gi =>
      rw [hsng] at hu
      dsimp only at hu
      obtain ⟨st, hst, rfl⟩ := start_new_game_eq_some.mp hsng
      dsimp only at hu
      rw [Option.some_inj] at hu
      subst hu
      refine ⟨?_, ?_, ?_, ⟨st, hst, ?_⟩, ?_, ?_, ?_, ?_, ?_, ?_⟩
      · rw [update_ready_state_stats]
        rfl
      · rw [update_ready_state_stats]
        rfl
      · rw [update_ready_state_cs]
        rfl
      · rw [update_ready_state_bricks]
        rfl
      · rw [update_ready_state_state]
      · rw [update_ready_state_ball_speed_x]
        rfl
      · rw [update_ready_state_ball_speed_y]
        rfl
      · rw [update_ready_state_ball_trail]
        rfl
      · rw [update_ready_state_ball_oob]
        rfl
      · rw [update_ready_state_ball_y]
        rfl

/-- C8 witness: restarting out of the concrete GAME_OVER state yields a
fresh READY game. -/
theorem C8_terminal_states_witness :
    dropG3.stats.score = 0 ∧ dropG3.stats.lives = 0 ∧ dropG3.current_stage = 1
    ∧ dropG3.current_game_state = GameState.READY ∧ dropG3.ball.speed_x = 0 := by
  have h := (C8_terminal_states sampleTrig inpRestart dropG2 (Or.inl (by decide))).2.2
    dropG3 rfl (by decide)
  exact ⟨h.1, h.2.1, h.2.2.1, h.2.2.2.2.1, h.2.2.2.2.2.1⟩
